import Mathlib

/-!
Verification of the resilient event-publishing subsystem of
cert-webhook-system against its natural-language specification.

The development shallowly embeds the two Go source files the claims touch:

* `internal/event/event.go` — the pure event model (message construction,
  routing-target resolution, container-name parsing, annotation filtering);
* `internal/rabbitmq/client.go` — the broker client (connect, reconnect
  with backoff, publish, health check, close, close-watcher).

Go maps from string to string are embedded as association lists
(`GoMap`); a *nil* map, which Go distinguishes from an empty one, is
embedded as `none : Option GoMap` where the distinction is observable.
Indexing a Go map returns the zero value `""` for a missing key, which
`goIndex` mirrors.  The stateful broker client is embedded as explicit
state passing over a `World` that carries the client's fields, queues of
environment-chosen outcomes for each fallible transport operation, and a
chronological trace of the externally visible actions the client performs
(dials, channel opens, closes, declares, publishes, sleeps, lock
acquisitions and reads of the shutdown flag).
-/

namespace CertWebhook

/-- Association-list embedding of a (non-nil) Go `map[string]string`. -/
abbrev GoMap : Type := List (String × String)

/-- Reading `m[k]` on a Go map: the stored value, or the zero value `""`
when the key is absent. -/
def goIndex (m : GoMap) (k : String) : String :=
  match List.lookup k m with
  | some v => v
  | none => ""

/-- The label key `WebhookEnabledLabel` of event.go. -/
def webhookEnabledLabel : String := "cert-webhook.golder.tech/enabled"

/-- The constant `AnnotationPrefix` of event.go, the common key namespace of
all webhook-related annotations. -/
def annPfx : String := "cert-webhook.golder.tech/"

/-- The constant `DefaultExchange` of event.go. -/
def DefaultExchange : String := "certificate-events"

/-- The constant `DefaultRoutingKey` of event.go. -/
def DefaultRoutingKey : String := "certificate.renewed"

/-- Whether a character is whitespace for Go's `unicode.IsSpace`, the
predicate `strings.TrimSpace` trims by: ASCII whitespace, NEL, NBSP and
the Unicode `White_Space` code points. -/
def goIsSpace (c : Char) : Bool :=
  c = '\t' || c = '\n' || c = '\x0b' || c = '\x0c' || c = '\r' || c = ' ' ||
  c = '\x85' || c = '\xa0' || c = '\u1680' ||
  ('\u2000' ≤ c && c ≤ '\u200a') ||
  c = '\u2028' || c = '\u2029' || c = '\u202f' || c = '\u205f' || c = '\u3000'

/-- Go's `strings.TrimSpace`: drop leading and trailing whitespace. -/
def goTrimSpace (s : String) : String :=
  String.mk (((s.toList.dropWhile goIsSpace).reverse.dropWhile goIsSpace).reverse)

/-- Splitting a character list at every comma, keeping empty pieces: the
behaviour of Go's `strings.Split`/`strings.SplitSeq` with separator `","`
(the empty input gives one empty piece). -/
def splitCommaChars : List Char → List (List Char)
  | [] => [[]]
  | c :: rest =>
    if c = ',' then [] :: splitCommaChars rest
    else
      match splitCommaChars rest with
      | [] => [[c]]
      | piece :: pieces => (c :: piece) :: pieces

/-- Go's `strings.SplitSeq(s, ",")`, yielding strings. -/
def goSplitComma (s : String) : List String :=
  (splitCommaChars s.toList).map String.mk

/-- `ParseContainerNames` of event.go: an empty input yields the empty
(non-nil) slice; otherwise split on `,`, trim each token, keep the
non-empty ones in order. -/
def ParseContainerNames (containerNamesStr : String) : List String :=
  if containerNamesStr = "" then []
  else
    (goSplitComma containerNamesStr).filterMap (fun name =>
      let trimmed := goTrimSpace name
      if trimmed = "" then none else some trimmed)

/-- `FilterAnnotations` of event.go: the sub-map of entries whose key has
the given leading string. -/
def FilterAnnotations (m : GoMap) (p : String) : GoMap :=
  List.filter (fun kv => p.isPrefixOf kv.1) m

/-- `ExchangeAndRoutingKey` of event.go: each component independently is
the annotation value when non-empty, else its own default. -/
def ExchangeAndRoutingKey (anns : GoMap) : String × String :=
  let exchange := goIndex anns (annPfx ++ "rabbitmq-exchange")
  let exchange := if exchange = "" then DefaultExchange else exchange
  let routingKey := goIndex anns (annPfx ++ "rabbitmq-routing-key")
  let routingKey := if routingKey = "" then DefaultRoutingKey else routingKey
  (exchange, routingKey)

/-- The `Message` struct of event.go.  `metadataLabels` is the value stored
at key "labels" of the `Metadata` map — the labels argument as given,
possibly nil — and `metadataAnnotations` the value stored at key
"annotations", always a real (non-nil) map. -/
structure Message where
  event : String
  certificate : String
  nspace : String
  secretName : String
  targetType : String
  dockerEngine : String
  dockerComposePath : String
  containerNames : List String
  timestamp : Int
  trigger : String
  metadataLabels : Option GoMap
  metadataAnnotations : GoMap
deriving DecidableEq

/-- `NewMessage` of event.go.  A nil `annotations` argument is replaced by
a fresh empty map before any read; the `labels` argument is stored in the
metadata untouched.  `now` stands for `time.Now().Unix()`. -/
def NewMessage (name nspace secretName : String)
    (labels annsIn : Option GoMap) (now : Int) : Message :=
  let anns : GoMap := match annsIn with
    | none => ([] : List (String × String))
    | some m => m
  { event := "certificate.renewed"
    certificate := name
    nspace := nspace
    secretName := secretName
    targetType := goIndex anns (annPfx ++ "target")
    dockerEngine := goIndex anns (annPfx ++ "docker-engine")
    dockerComposePath := goIndex anns (annPfx ++ "docker-compose-path")
    containerNames := ParseContainerNames (goIndex anns (annPfx ++ "container-names"))
    timestamp := now
    trigger := "cert-manager-webhook"
    metadataLabels := labels
    metadataAnnotations := FilterAnnotations anns annPfx }

/-! ## The broker client (internal/rabbitmq/client.go)

The client's mutable fields (`conn`, `channel`, `url`, `closed`) become
fields of a `World`, together with an environment: one queue of
Boolean outcomes per fallible transport operation (dial, channel open,
exchange declare, JSON marshal, publish, queue declare), a queue
`pendingClose` of interference bits — bit `b` consumed at a lock
acquisition means a concurrent `Close` ran just before this acquisition
when `b` is true, so the flag is OR-ed in; an empty queue is a run with
no concurrent shutdown — and a chronological trace of visible actions.
An exhausted outcome queue stands for a broker that fails the operation.

Connections and channels of the amqp091-go library are embedded by their
open/closed bit alone; per that library's documented semantics, `Close`
on an already-closed connection or channel returns `ErrClosed`
("channel/connection is not open") and closing an open one succeeds. -/

/-- The part of an `amqp.Connection` the client observes. -/
structure Conn where
  isOpen : Bool
deriving DecidableEq

/-- The part of an `amqp.Channel` the client observes. -/
structure Chan where
  isOpen : Bool
deriving DecidableEq

/-- One externally visible step of the client, recorded in the trace. -/
inductive Action where
  | lockAcq
  | setClosed
  | checkClosed (value : Bool)
  | sleep (ns : Nat)
  | dial
  | chanOpen
  | closeChan
  | closeConn
  | exchangeDeclare
  | queueDeclare
  | publishMsg
  | watchStart
deriving DecidableEq

/-- Client state plus environment plus trace. -/
structure World where
  conn : Option Conn := none
  channel : Option Chan := none
  url : String := ""
  closed : Bool := false
  pendingClose : List Bool := []
  dialResults : List Bool := []
  chanResults : List Bool := []
  declareResults : List Bool := []
  marshalResults : List Bool := []
  publishResults : List Bool := []
  queueResults : List Bool := []
  trace : List Action := []
deriving DecidableEq

/-- Record one action at the end of the trace. -/
def emit (a : Action) (w : World) : World :=
  { w with trace := w.trace ++ [a] }

/-- Acquiring `c.mu`: consume one interference bit (a concurrent `Close`
finishing just before us OR-s the shutdown flag in). -/
def lock (w : World) : World :=
  match w.pendingClose with
  | [] => emit .lockAcq w
  | b :: rest => emit .lockAcq { w with closed := w.closed || b, pendingClose := rest }

/-- The constant `maxReconnectAttempts` of client.go. -/
def maxReconnectAttempts : Nat := 5

/-- The constant `initialBackoff` of client.go (1s), in nanoseconds. -/
def initialBackoffNs : Nat := 1000000000

/-- The constant `maxBackoff` of client.go (30s), in nanoseconds. -/
def maxBackoffNs : Nat := 30000000000

/-- The backoff before attempt `attempt` (0-indexed):
`min(initialBackoff * 2^attempt, maxBackoff)`.  client.go computes this
with float64 `math.Min`/`math.Pow`; for every attempt the loop uses
(0 ≤ attempt < 5) the products stay at or below 16e9 < 2^53, so the
float computation is exact and agrees with this integer form. -/
def backoffDuration (attempt : Nat) : Nat :=
  min (initialBackoffNs * 2 ^ attempt) maxBackoffNs

/-- Stand-in message of a failed `amqp.Dial`. -/
def dialErrMsg : String := "dial error"

/-- Stand-in message of a failed `conn.Channel()`. -/
def chanErrMsg : String := "channel open error"

/-- Message of amqp091-go's `ErrClosed`. -/
def errClosedMsg : String := "channel/connection is not open"

/-- Stand-in message of a failed `ExchangeDeclare`. -/
def declErrMsg : String := "declare error"

/-- Stand-in message of a failed `json.Marshal`. -/
def marshalErrMsg : String := "marshal error"

/-- Stand-in message of a failed `PublishWithContext`. -/
def pubErrMsg : String := "publish error"

/-- Stand-in message of a failed `QueueDeclare`. -/
def qdeclErrMsg : String := "queue declare error"

/-- Abort message of `reconnectWithBackoff` when the client was closed. -/
def closedDuringMsg : String := "client closed during reconnection"

/-- Exhaustion message of `reconnectWithBackoff`
(`fmt.Errorf` with `maxReconnectAttempts`). -/
def reconnectFailedMsg : String :=
  "failed to reconnect after " ++ toString maxReconnectAttempts ++ " attempts"

/-- `amqp.Dial(c.url)`: one network dial, outcome from the environment. -/
def amqpDial (w : World) : Except String Conn × World :=
  match w.dialResults with
  | true :: rest => (.ok ⟨true⟩, emit .dial { w with dialResults := rest })
  | false :: rest => (.error dialErrMsg, emit .dial { w with dialResults := rest })
  | [] => (.error dialErrMsg, emit .dial w)

/-- `c.conn.Channel()`: open a channel on the dialed connection. -/
def connChannel (w : World) : Except String Chan × World :=
  match w.chanResults with
  | true :: rest => (.ok ⟨true⟩, emit .chanOpen { w with chanResults := rest })
  | false :: rest => (.error chanErrMsg, emit .chanOpen { w with chanResults := rest })
  | [] => (.error chanErrMsg, emit .chanOpen w)

/-- `c.channel.Close()` with amqp091-go semantics: closing an open channel
succeeds and marks it closed; an already-closed one yields `ErrClosed`. -/
def chanClose (w : World) : Except String Unit × World :=
  match w.channel with
  | none => (.error errClosedMsg, emit .closeChan w)
  | some ch =>
    if ch.isOpen then (.ok (), emit .closeChan { w with channel := some ⟨false⟩ })
    else (.error errClosedMsg, emit .closeChan w)

/-- `c.conn.Close()` with amqp091-go semantics, as for `chanClose`. -/
def connClose (w : World) : Except String Unit × World :=
  match w.conn with
  | none => (.error errClosedMsg, emit .closeConn w)
  | some cn =>
    if cn.isOpen then (.ok (), emit .closeConn { w with conn := some ⟨false⟩ })
    else (.error errClosedMsg, emit .closeConn w)

/-- `connect` of client.go: dial, then open a channel; a channel failure
closes the fresh connection and leaves `channel` nil; a dial failure
leaves `conn` nil. -/
def connect (w : World) : Except String Unit × World :=
  let r := amqpDial w
  match r.1 with
  | .error e => (.error ("failed to connect to RabbitMQ: " ++ e), { r.2 with conn := none })
  | .ok cn =>
    let w1 := { r.2 with conn := some cn }
    let r2 := connChannel w1
    match r2.1 with
    | .error e =>
      let w2 := { r2.2 with channel := none }
      let r3 := connClose w2
      (.error ("failed to open channel: " ++ e), r3.2)
    | .ok ch => (.ok (), { r2.2 with channel := some ch })

/-- `reconnect` of client.go: best-effort close of the old channel and of
the old connection when still open, then `connect`. -/
def reconnect (w : World) : Except String Unit × World :=
  let w1 := if w.channel.isSome then (chanClose w).2 else w
  let w2 :=
    match w1.conn with
    | some cn => if cn.isOpen then (connClose w1).2 else w1
    | none => w1
  connect w2

/-- `ensureConnection` of client.go: under the lock, reconnect when the
connection is nil, reported closed, or the channel is nil; otherwise
return nil without touching the network. -/
def ensureConnection (w : World) : Except String Unit × World :=
  let w1 := lock w
  match w1.conn with
  | none => reconnect w1
  | some cn =>
    if !cn.isOpen then reconnect w1
    else if w1.channel.isNone then reconnect w1
    else (.ok (), w1)

/-- The loop of `reconnectWithBackoff` of client.go, with the remaining
iteration count as fuel (`fuel + attempt = maxReconnectAttempts` at every
call from the loop itself): sleep the backoff, take the lock, read the
shutdown flag — abort when set — then try `reconnect`; a success restarts
the close-watcher and returns nil, a failure moves to the next attempt. -/
def reconnectGo : Nat → Nat → World → Except String Unit × World
  | 0, _, w => (.error reconnectFailedMsg, w)
  | fuel + 1, attempt, w =>
    let w1 := emit (.sleep (backoffDuration attempt)) w
    let w2 := lock w1
    let w3 := emit (.checkClosed w2.closed) w2
    if w2.closed then (.error closedDuringMsg, w3)
    else
      let r := reconnect w3
      match r.1 with
      | .error _ => reconnectGo fuel (attempt + 1) r.2
      | .ok _ => (.ok (), emit .watchStart r.2)

/-- `reconnectWithBackoff` of client.go. -/
def reconnectWithBackoff (w : World) : Except String Unit × World :=
  reconnectGo maxReconnectAttempts 0 w

/-- The close-watcher goroutine body of `watchConnection` of client.go,
after receiving `notifyErr` on the close-notification channel: a nil
error is a graceful close and the watcher just returns; otherwise it
takes the lock, reads the shutdown flag, returns when set, and otherwise
runs the backoff-reconnect sequence (discarding its error). -/
def watchBody (notifyErr : Option String) (w : World) : World :=
  match notifyErr with
  | none => w
  | some _ =>
    let w1 := lock w
    let w2 := emit (.checkClosed w1.closed) w1
    if w1.closed then w2
    else (reconnectWithBackoff w2).2

/-- `c.channel.ExchangeDeclare(exchange, "topic", true, false, false,
false, nil)`: outcome from the environment.  The declared exchange name
does not influence the embedded control flow, so it is omitted. -/
def exchangeDeclare (w : World) : Except String Unit × World :=
  match w.declareResults with
  | true :: rest => (.ok (), emit .exchangeDeclare { w with declareResults := rest })
  | false :: rest => (.error declErrMsg, emit .exchangeDeclare { w with declareResults := rest })
  | [] => (.error declErrMsg, emit .exchangeDeclare w)

/-- `json.Marshal(message)`: pure CPU work, no broker action, outcome from
the environment. -/
def jsonMarshal (w : World) : Except String Unit × World :=
  match w.marshalResults with
  | true :: rest => (.ok (), { w with marshalResults := rest })
  | false :: rest => (.error marshalErrMsg, { w with marshalResults := rest })
  | [] => (.error marshalErrMsg, w)

/-- `c.channel.PublishWithContext(...)`: the send, outcome from the
environment. -/
def publishSend (w : World) : Except String Unit × World :=
  match w.publishResults with
  | true :: rest => (.ok (), emit .publishMsg { w with publishResults := rest })
  | false :: rest => (.error pubErrMsg, emit .publishMsg { w with publishResults := rest })
  | [] => (.error pubErrMsg, emit .publishMsg w)

/-- `Publish` of client.go: ensure the connection, then under the lock
declare the exchange, marshal and send, wrapping the first failure.  The
exchange, routing key and message arguments do not influence the embedded
control flow (outcomes come from the environment), so they are omitted. -/
def Publish (w : World) : Except String Unit × World :=
  let r0 := ensureConnection w
  match r0.1 with
  | .error e => (.error ("failed to ensure connection: " ++ e), r0.2)
  | .ok _ =>
    let w1 := lock r0.2
    let r1 := exchangeDeclare w1
    match r1.1 with
    | .error e => (.error ("failed to declare exchange: " ++ e), r1.2)
    | .ok _ =>
      let r2 := jsonMarshal r1.2
      match r2.1 with
      | .error e => (.error ("failed to marshal message: " ++ e), r2.2)
      | .ok _ =>
        let r3 := publishSend r2.2
        match r3.1 with
        | .error e => (.error ("failed to publish message: " ++ e), r3.2)
        | .ok _ => (.ok (), r3.2)

/-- `c.channel.QueueDeclare("", false, true, true, false, nil)`: the
anonymous transient queue declare of the health check. -/
def queueDeclare (w : World) : Except String Unit × World :=
  match w.queueResults with
  | true :: rest => (.ok (), emit .queueDeclare { w with queueResults := rest })
  | false :: rest => (.error qdeclErrMsg, emit .queueDeclare { w with queueResults := rest })
  | [] => (.error qdeclErrMsg, emit .queueDeclare w)

/-- `HealthCheck` of client.go: under the lock, fail when the connection
is nil or reports closed, fail when the channel is nil, otherwise do the
anonymous queue-declare round-trip and report its outcome. -/
def HealthCheck (w : World) : Except String Unit × World :=
  let w1 := lock w
  match w1.conn with
  | none => (.error "connection is closed", w1)
  | some cn =>
    if !cn.isOpen then (.error "connection is closed", w1)
    else
      match w1.channel with
      | none => (.error "channel is nil", w1)
      | some _ =>
        let r := queueDeclare w1
        match r.1 with
        | .error e => (.error ("health check failed: " ++ e), r.2)
        | .ok _ => (.ok (), r.2)

/-- `Close` of client.go: under the lock, set the shutdown flag, then
close the channel (when non-nil) and the connection (when non-nil), both
attempted even if the first fails, concatenating the error messages. -/
def Close (w : World) : Except String Unit × World :=
  let w1 := lock w
  let w2 := emit .setClosed { w1 with closed := true }
  let chanStep : Option String × World :=
    match w2.channel with
    | none => (none, w2)
    | some _ =>
      let r := chanClose w2
      match r.1 with
      | .ok _ => (none, r.2)
      | .error e => (some ("failed to close channel: " ++ e), r.2)
  let connStep : Option String × World :=
    match chanStep.2.conn with
    | none => (chanStep.1, chanStep.2)
    | some _ =>
      let r := connClose chanStep.2
      match r.1 with
      | .ok _ => (chanStep.1, r.2)
      | .error e =>
        match chanStep.1 with
        | some e0 => (some (e0 ++ "; failed to close connection: " ++ e), r.2)
        | none => (some ("failed to close connection: " ++ e), r.2)
  match connStep.1 with
  | none => (.ok (), connStep.2)
  | some e => (.error e, connStep.2)

/-- The sleep durations in a trace, in order. -/
def sleepsOf (δ : List Action) : List Nat :=
  δ.filterMap fun a =>
    match a with
    | .sleep d => some d
    | _ => none

/-- The number of dials in a trace. -/
def dialCount (δ : List Action) : Nat :=
  δ.count .dial

/-- The actions an operation taking `w` to `w'` appended to the trace
(every operation of the client only appends). -/
def newTrace (w w' : World) : List Action := w'.trace.drop w.trace.length

/-- The connection check of `ensureConnection`:
`c.conn == nil || c.conn.IsClosed() || c.channel == nil`. -/
def needsReconnect (w : World) : Bool :=
  match w.conn with
  | none => true
  | some cn => !cn.isOpen || w.channel.isNone

/-- A freshly connected client with a transport environment that would let
one further dial and channel open succeed. -/
def postCloseEnsureW : World :=
  { conn := some ⟨true⟩, channel := some ⟨true⟩, url := "amqp://broker",
    dialResults := [true], chanResults := [true] }

/-- A client whose connection is present but reports closed, the state a
completed `Close` of a connected client leaves behind. -/
def closedConnW : World :=
  { conn := some ⟨false⟩, closed := true }

/-- A run of the reconnect loop in which a concurrent `Close` lands just
before the loop's first lock acquisition. -/
def raceCloseW : World :=
  { pendingClose := [true] }

/-- A connected client, used to run `Close` twice in a row. -/
def doubleCloseW : World :=
  { conn := some ⟨true⟩, channel := some ⟨true⟩, url := "amqp://broker" }

/-- A healthy connected client whose broker accepts the health-check
queue declare. -/
def healthyW : World :=
  { conn := some ⟨true⟩, channel := some ⟨true⟩, queueResults := [true] }

end CertWebhook

deriving instance DecidableEq for Except

namespace CertWebhook

/-! ## Theorems -/

/-- The token-level filterMap of `ParseContainerNames` is trimming then
discarding empties. -/
theorem filterMap_trim_eq (l : List String) :
    (l.filterMap fun name =>
      let trimmed := goTrimSpace name
      if trimmed = "" then none else some trimmed) =
    (l.map goTrimSpace).filter (fun t => t ≠ "") := by
  induction l with
  | nil => rfl
  | cons x xs ih =>
    by_cases h : goTrimSpace x = "" <;>
      simp [List.filterMap_cons, List.filter_cons, h, ih]

/-- C8: for every input, `ParseContainerNames` returns the trimmed
comma-separated tokens with empties discarded, in left-to-right order
(it equals mapping trim over the split then filtering out empties), it
contains no empty string, the empty input yields the empty sequence, and
`"a, ,b,"` yields `["a", "b"]`.  The result is a total `List`, never
nil: the code returns a literal empty slice for the empty input and an
allocated slice otherwise. -/
theorem C8_parse_container_names (s : String) :
    (∀ t ∈ ParseContainerNames s, t ≠ "") ∧
    ParseContainerNames s = ((goSplitComma s).map goTrimSpace).filter (fun t => t ≠ "") ∧
    ParseContainerNames "" = [] ∧
    ParseContainerNames "a, ,b," = ["a", "b"] := by
  have h2 : ParseContainerNames s =
      ((goSplitComma s).map goTrimSpace).filter (fun t => t ≠ "") := by
    by_cases hs : s = ""
    · subst hs; decide
    · simp only [ParseContainerNames, hs, if_false]
      exact filterMap_trim_eq _
  refine ⟨?_, h2, by decide, by decide⟩
  intro t ht
  rw [h2] at ht
  simpa using (List.mem_filter.mp ht).2

/-- C9: for every annotation mapping the resolved routing target has a
non-empty exchange and a non-empty routing key; each component equals the
prefixed annotation value when that value is non-empty (a missing key
reads as the empty string) and its own fixed default otherwise. -/
theorem C9_exchange_and_routing_key (m : GoMap) :
    (ExchangeAndRoutingKey m).1 ≠ "" ∧
    (ExchangeAndRoutingKey m).2 ≠ "" ∧
    (goIndex m (annPfx ++ "rabbitmq-exchange") ≠ "" →
      (ExchangeAndRoutingKey m).1 = goIndex m (annPfx ++ "rabbitmq-exchange")) ∧
    (goIndex m (annPfx ++ "rabbitmq-exchange") = "" →
      (ExchangeAndRoutingKey m).1 = DefaultExchange) ∧
    (goIndex m (annPfx ++ "rabbitmq-routing-key") ≠ "" →
      (ExchangeAndRoutingKey m).2 = goIndex m (annPfx ++ "rabbitmq-routing-key")) ∧
    (goIndex m (annPfx ++ "rabbitmq-routing-key") = "" →
      (ExchangeAndRoutingKey m).2 = DefaultRoutingKey) ∧
    DefaultExchange = "certificate-events" ∧
    DefaultRoutingKey = "certificate.renewed" := by
  by_cases he : goIndex m (annPfx ++ "rabbitmq-exchange") = "" <;>
    by_cases hr : goIndex m (annPfx ++ "rabbitmq-routing-key") = "" <;>
      simp [ExchangeAndRoutingKey, he, hr, DefaultExchange, DefaultRoutingKey]

/-- C2 (amended): `NewMessage` with nil labels and nil annotations always
succeeds and yields empty optional string fields, an empty container-name
sequence and an empty filtered annotations metadata map; the labels
metadata entry, however, is the labels argument passed through unchanged,
so it is nil (not an empty map) here. -/
theorem C2_nil_maps_message (name nspace secretName : String) (now : Int) :
    (NewMessage name nspace secretName none none now).targetType = "" ∧
    (NewMessage name nspace secretName none none now).dockerEngine = "" ∧
    (NewMessage name nspace secretName none none now).dockerComposePath = "" ∧
    (NewMessage name nspace secretName none none now).containerNames = [] ∧
    (NewMessage name nspace secretName none none now).metadataAnnotations = [] ∧
    (NewMessage name nspace secretName none none now).metadataLabels = none ∧
    (NewMessage name nspace secretName none none now).event = "certificate.renewed" ∧
    (NewMessage name nspace secretName none none now).certificate = name := by
  refine ⟨rfl, rfl, rfl, rfl, rfl, rfl, rfl, rfl⟩

/-- C2 (counterexample): with nil labels and nil annotations the metadata
labels entry of the built message is nil, not an empty mapping. -/
theorem C2_counterexample :
    (NewMessage "cert" "ns" "secret" none none 0).metadataLabels = none ∧
    (NewMessage "cert" "ns" "secret" none none 0).metadataLabels ≠ some [] := by
  exact ⟨rfl, by decide⟩

/-! ### Helper lemmas about the client's primitive steps -/

@[simp] theorem lock_conn (w : World) : (lock w).conn = w.conn := by
  rcases w with ⟨cn, ch, u, cl, _ | ⟨b, pend⟩, dr, cr, der, mr, pr, qr, tr⟩ <;> rfl

@[simp] theorem lock_channel (w : World) : (lock w).channel = w.channel := by
  rcases w with ⟨cn, ch, u, cl, _ | ⟨b, pend⟩, dr, cr, der, mr, pr, qr, tr⟩ <;> rfl

@[simp] theorem lock_url (w : World) : (lock w).url = w.url := by
  rcases w with ⟨cn, ch, u, cl, _ | ⟨b, pend⟩, dr, cr, der, mr, pr, qr, tr⟩ <;> rfl

@[simp] theorem lock_trace (w : World) : (lock w).trace = w.trace ++ [Action.lockAcq] := by
  rcases w with ⟨cn, ch, u, cl, _ | ⟨b, pend⟩, dr, cr, der, mr, pr, qr, tr⟩ <;> rfl

@[simp] theorem lock_dialResults (w : World) : (lock w).dialResults = w.dialResults := by
  rcases w with ⟨cn, ch, u, cl, _ | ⟨b, pend⟩, dr, cr, der, mr, pr, qr, tr⟩ <;> rfl

@[simp] theorem lock_chanResults (w : World) : (lock w).chanResults = w.chanResults := by
  rcases w with ⟨cn, ch, u, cl, _ | ⟨b, pend⟩, dr, cr, der, mr, pr, qr, tr⟩ <;> rfl

@[simp] theorem lock_declareResults (w : World) :
    (lock w).declareResults = w.declareResults := by
  rcases w with ⟨cn, ch, u, cl, _ | ⟨b, pend⟩, dr, cr, der, mr, pr, qr, tr⟩ <;> rfl

@[simp] theorem lock_marshalResults (w : World) :
    (lock w).marshalResults = w.marshalResults := by
  rcases w with ⟨cn, ch, u, cl, _ | ⟨b, pend⟩, dr, cr, der, mr, pr, qr, tr⟩ <;> rfl

@[simp] theorem lock_publishResults (w : World) :
    (lock w).publishResults = w.publishResults := by
  rcases w with ⟨cn, ch, u, cl, _ | ⟨b, pend⟩, dr, cr, der, mr, pr, qr, tr⟩ <;> rfl

@[simp] theorem lock_queueResults (w : World) : (lock w).queueResults = w.queueResults := by
  rcases w with ⟨cn, ch, u, cl, _ | ⟨b, pend⟩, dr, cr, der, mr, pr, qr, tr⟩ <;> rfl

theorem lock_closed_of_true (w : World) (h : w.closed = true) : (lock w).closed = true := by
  rcases w with ⟨cn, ch, u, cl, _ | ⟨b, pend⟩, dr, cr, der, mr, pr, qr, tr⟩ <;>
    simp_all [lock, emit]

/-- Trace, environment-frame and flag facts of `reconnect`: it appends
exactly one dial plus channel bookkeeping, and touches no other queue and
no client flag. -/
theorem reconnect_spec (w : World) :
    (reconnect w).2.trace = w.trace ++ newTrace w (reconnect w).2 ∧
    dialCount (newTrace w (reconnect w).2) = 1 ∧
    (∀ a ∈ newTrace w (reconnect w).2,
      a = .closeChan ∨ a = .closeConn ∨ a = .dial ∨ a = .chanOpen) ∧
    (reconnect w).2.declareResults = w.declareResults ∧
    (reconnect w).2.marshalResults = w.marshalResults ∧
    (reconnect w).2.publishResults = w.publishResults ∧
    (reconnect w).2.queueResults = w.queueResults ∧
    (reconnect w).2.pendingClose = w.pendingClose ∧
    (reconnect w).2.closed = w.closed ∧
    (reconnect w).2.url = w.url := by
  obtain ⟨cn, ch, u, cl, pend, dr, cr, der, mr, pr, qr, tr⟩ := w
  rcases ch with _ | ⟨_ | _⟩ <;>
  rcases cn with _ | ⟨_ | _⟩ <;>
  rcases dr with _ | ⟨_ | _, dr⟩ <;>
  rcases cr with _ | ⟨_ | _, cr⟩ <;>
  simp [reconnect, connect, amqpDial, connChannel, chanClose, connClose, emit,
    newTrace, dialCount]

/-- The outcome of `reconnect` is decided by the heads of the dial and
channel-open outcome queues alone. -/
theorem reconnect_result (w : World) :
    (reconnect w).1 =
      (if w.dialResults.head?.getD false = false then
        .error ("failed to connect to RabbitMQ: " ++ dialErrMsg)
      else if w.chanResults.head?.getD false = false then
        .error ("failed to open channel: " ++ chanErrMsg)
      else .ok ()) := by
  obtain ⟨cn, ch, u, cl, pend, dr, cr, der, mr, pr, qr, tr⟩ := w
  rcases ch with _ | ⟨_ | _⟩ <;>
  rcases cn with _ | ⟨_ | _⟩ <;>
  rcases dr with _ | ⟨_ | _, dr⟩ <;>
  rcases cr with _ | ⟨_ | _, cr⟩ <;>
  simp [reconnect, connect, amqpDial, connChannel, chanClose, connClose, emit]

/-- The outcome of `ensureConnection`: the cheap path returns nil; the
reconnect path is decided by the dial/channel-open queues. -/
theorem ensureConnection_result (w : World) :
    (ensureConnection w).1 =
      (if needsReconnect w then
        (if w.dialResults.head?.getD false = false then
          .error ("failed to connect to RabbitMQ: " ++ dialErrMsg)
        else if w.chanResults.head?.getD false = false then
          .error ("failed to open channel: " ++ chanErrMsg)
        else .ok ())
      else .ok ()) := by
  obtain ⟨cn, ch, u, cl, pend, dr, cr, der, mr, pr, qr, tr⟩ := w
  rcases pend with _ | ⟨_ | _, pend⟩ <;>
  rcases ch with _ | ⟨_ | _⟩ <;>
  rcases cn with _ | ⟨_ | _⟩ <;>
  rcases dr with _ | ⟨_ | _, dr⟩ <;>
  rcases cr with _ | ⟨_ | _, cr⟩ <;>
  simp [ensureConnection, needsReconnect, lock, reconnect, connect, amqpDial, connChannel,
    chanClose, connClose, emit]

/-- Auxiliary step for `ensureConnection_spec`: the conclusion holds
whenever the call took the reconnect path. -/
theorem ensureSpec_reconnect_path (w : World)
    (he : ensureConnection w = reconnect (lock w)) :
    (ensureConnection w).2.trace = w.trace ++ newTrace w (ensureConnection w).2 ∧
    dialCount (newTrace w (ensureConnection w).2) ≤ 1 ∧
    (∀ a ∈ newTrace w (ensureConnection w).2,
      a = .lockAcq ∨ a = .closeChan ∨ a = .closeConn ∨ a = .dial ∨ a = .chanOpen) ∧
    (ensureConnection w).2.declareResults = w.declareResults ∧
    (ensureConnection w).2.marshalResults = w.marshalResults ∧
    (ensureConnection w).2.publishResults = w.publishResults ∧
    (ensureConnection w).2.queueResults = w.queueResults := by
  have hlt : (lock w).trace = w.trace ++ [Action.lockAcq] := lock_trace w
  obtain ⟨h1, h2, h3, h4, h5, h6, h7, -, -, -⟩ := reconnect_spec (lock w)
  have htr : (reconnect (lock w)).2.trace =
      w.trace ++ (Action.lockAcq :: newTrace (lock w) (reconnect (lock w)).2) := by
    rw [h1, hlt, List.append_assoc]
    rfl
  have hnew : newTrace w (reconnect (lock w)).2 =
      Action.lockAcq :: newTrace (lock w) (reconnect (lock w)).2 := by
    show (reconnect (lock w)).2.trace.drop w.trace.length = _
    rw [htr]
    exact List.drop_left w.trace _
  rw [he]
  refine ⟨by rw [hnew, htr], ?_, ?_, by rw [h4, lock_declareResults],
    by rw [h5, lock_marshalResults], by rw [h6, lock_publishResults],
    by rw [h7, lock_queueResults]⟩
  · rw [hnew]
    have hc : dialCount (Action.lockAcq :: newTrace (lock w) (reconnect (lock w)).2) =
        dialCount (newTrace (lock w) (reconnect (lock w)).2) := by
      simp [dialCount]
    rw [hc, h2]
  · rw [hnew]
    intro a ha
    rcases List.mem_cons.mp ha with rfl | ha
    · exact Or.inl rfl
    · rcases h3 a ha with h | h | h | h <;> simp [h]

/-- Trace and environment-frame facts of `ensureConnection`: at most one
dial, no declare, no send, no queue declare, and the publish-path outcome
queues are untouched. -/
theorem ensureConnection_spec (w : World) :
    (ensureConnection w).2.trace = w.trace ++ newTrace w (ensureConnection w).2 ∧
    dialCount (newTrace w (ensureConnection w).2) ≤ 1 ∧
    (∀ a ∈ newTrace w (ensureConnection w).2,
      a = .lockAcq ∨ a = .closeChan ∨ a = .closeConn ∨ a = .dial ∨ a = .chanOpen) ∧
    (ensureConnection w).2.declareResults = w.declareResults ∧
    (ensureConnection w).2.marshalResults = w.marshalResults ∧
    (ensureConnection w).2.publishResults = w.publishResults ∧
    (ensureConnection w).2.queueResults = w.queueResults := by
  rcases hq : w.conn with _ | cn
  · exact ensureSpec_reconnect_path w (by simp [ensureConnection, hq])
  rcases hco : cn.isOpen with _ | _
  · exact ensureSpec_reconnect_path w (by simp [ensureConnection, hq, hco])
  rcases hch : w.channel with _ | ch
  · exact ensureSpec_reconnect_path w (by simp [ensureConnection, hq, hco, hch])
  have he : ensureConnection w = (.ok (), lock w) := by
    simp [ensureConnection, hq, hco, hch]
  have hlt : (lock w).trace = w.trace ++ [Action.lockAcq] := lock_trace w
  have hnew : newTrace w (lock w) = [Action.lockAcq] := by
    show (lock w).trace.drop w.trace.length = _
    rw [hlt]
    exact List.drop_left w.trace _
  rw [he]
  refine ⟨by rw [hnew, hlt], by rw [hnew]; simp [dialCount], ?_,
    lock_declareResults w, lock_marshalResults w, lock_publishResults w,
    lock_queueResults w⟩
  rw [hnew]
  intro a ha
  exact Or.inl (List.mem_singleton.mp ha)

/-- The shutdown flag is set by `Close`, whatever `Close` returns. -/
theorem Close_closed (w : World) : (Close w).2.closed = true := by
  obtain ⟨cn, ch, u, cl, pend, dr, cr, der, mr, pr, qr, tr⟩ := w
  rcases pend with _ | ⟨_ | _, pend⟩ <;>
  rcases ch with _ | ⟨_ | _⟩ <;>
  rcases cn with _ | ⟨_ | _⟩ <;>
  simp [Close, lock, emit, chanClose, connClose]

/-- The four possible traces of a `Close` call: the flag write always
precedes the (attempted) transport closes. -/
theorem Close_trace_cases (w : World) :
    (Close w).2.trace = w.trace ++ [Action.lockAcq, Action.setClosed] ∨
    (Close w).2.trace = w.trace ++ [Action.lockAcq, Action.setClosed, Action.closeChan] ∨
    (Close w).2.trace = w.trace ++ [Action.lockAcq, Action.setClosed, Action.closeConn] ∨
    (Close w).2.trace =
      w.trace ++ [Action.lockAcq, Action.setClosed, Action.closeChan, Action.closeConn] := by
  obtain ⟨cn, ch, u, cl, pend, dr, cr, der, mr, pr, qr, tr⟩ := w
  rcases pend with _ | ⟨_ | _, pend⟩ <;>
  rcases ch with _ | ⟨_ | _⟩ <;>
  rcases cn with _ | ⟨_ | _⟩ <;>
  simp [Close, lock, emit, chanClose, connClose]

/-- A watcher that finds the shutdown flag set returns after its check:
no sleep, no dial, no state change. -/
theorem watchBody_closed (w : World) (e : String) (h : w.closed = true) :
    (watchBody (some e) w).trace = w.trace ++ [Action.lockAcq, Action.checkClosed true] ∧
    (watchBody (some e) w).conn = w.conn ∧
    (watchBody (some e) w).channel = w.channel := by
  obtain ⟨cn, ch, u, cl, pend, dr, cr, der, mr, pr, qr, tr⟩ := w
  subst h
  rcases pend with _ | ⟨_ | _, pend⟩ <;>
    simp [watchBody, lock, emit]

/-! ### Claims about the connection manager -/

/-- C1 (counterexample): on a freshly connected client, `Close` completes
successfully (so the client is shut down), yet the next `ensureConnection`
finds the connection closed, dials the broker (network I/O) and returns
nil instead of a "closed" failure. -/
theorem C1_counterexample :
    (Close postCloseEnsureW).2.closed = true ∧
    (Close postCloseEnsureW).1 = .ok () ∧
    (ensureConnection (Close postCloseEnsureW).2).1 = .ok () ∧
    dialCount (ensureConnection (Close postCloseEnsureW).2).2.trace =
      dialCount ((Close postCloseEnsureW).2.trace) + 1 := by
  decide

/-- C1 (amended): `ensureConnection` never consults the shutdown flag.
After a shutdown that left the connection object present but closed, a
call performs exactly one dial (network I/O) and returns the transport
outcome — nil when the dial and channel open succeed — never a "closed"
condition: the `closed` flag is terminal only for the background
reconnect path, not for `ensureConnection`. -/
theorem C1_ensure_after_close (w : World) (cn : Conn)
    (hclosed : w.closed = true) (hconn : w.conn = some cn)
    (hopen : cn.isOpen = false) :
    ((ensureConnection w).2.trace = w.trace ++ newTrace w (ensureConnection w).2 ∧
      dialCount (newTrace w (ensureConnection w).2) = 1) ∧
    ((ensureConnection w).1 = .ok () ∨
      (ensureConnection w).1 = .error ("failed to connect to RabbitMQ: " ++ dialErrMsg) ∨
      (ensureConnection w).1 = .error ("failed to open channel: " ++ chanErrMsg)) ∧
    (ensureConnection w).1 ≠ .error closedDuringMsg ∧
    ((ensureConnection w).1 = .ok () ↔
      w.dialResults.head?.getD false = true ∧ w.chanResults.head?.getD false = true) := by
  clear hclosed
  have he : ensureConnection w = reconnect (lock w) := by
    simp [ensureConnection, hconn, hopen]
  have hres : (ensureConnection w).1 =
      (if w.dialResults.head?.getD false = false then
        Except.error ("failed to connect to RabbitMQ: " ++ dialErrMsg)
      else if w.chanResults.head?.getD false = false then
        Except.error ("failed to open channel: " ++ chanErrMsg)
      else Except.ok ()) := by
    rw [he, reconnect_result (lock w), lock_dialResults, lock_chanResults]
  refine ⟨?_, ?_⟩
  · have hlt : (lock w).trace = w.trace ++ [Action.lockAcq] := lock_trace w
    obtain ⟨h1, h2, -, -, -, -, -, -, -, -⟩ := reconnect_spec (lock w)
    have htr : (reconnect (lock w)).2.trace =
        w.trace ++ (Action.lockAcq :: newTrace (lock w) (reconnect (lock w)).2) := by
      rw [h1, hlt, List.append_assoc]
      rfl
    have hnew : newTrace w (reconnect (lock w)).2 =
        Action.lockAcq :: newTrace (lock w) (reconnect (lock w)).2 := by
      show (reconnect (lock w)).2.trace.drop w.trace.length = _
      rw [htr]
      exact List.drop_left w.trace _
    rw [he]
    refine ⟨by rw [hnew, htr], ?_⟩
    rw [hnew]
    have hc : dialCount (Action.lockAcq :: newTrace (lock w) (reconnect (lock w)).2) =
        dialCount (newTrace (lock w) (reconnect (lock w)).2) := by
      simp [dialCount]
    rw [hc, h2]
  · rcases hd : w.dialResults.head?.getD false with _ | _ <;>
      rcases hc : w.chanResults.head?.getD false with _ | _ <;>
        rw [hd, hc] at hres <;> simp at hres <;> rw [hres] <;> decide

/--  Witness for C1_ensure_after_close at the canonical post-shutdown
state `closedConnW` (connection present, closed; empty environment, so
the forced dial fails). -/
theorem C1_ensure_after_close_witness :
    ((ensureConnection closedConnW).2.trace =
        closedConnW.trace ++ newTrace closedConnW (ensureConnection closedConnW).2 ∧
      dialCount (newTrace closedConnW (ensureConnection closedConnW).2) = 1) ∧
    ((ensureConnection closedConnW).1 = .ok () ∨
      (ensureConnection closedConnW).1 =
        .error ("failed to connect to RabbitMQ: " ++ dialErrMsg) ∨
      (ensureConnection closedConnW).1 =
        .error ("failed to open channel: " ++ chanErrMsg)) ∧
    (ensureConnection closedConnW).1 ≠ .error closedDuringMsg ∧
    ((ensureConnection closedConnW).1 = .ok () ↔
      closedConnW.dialResults.head?.getD false = true ∧
        closedConnW.chanResults.head?.getD false = true) :=
  C1_ensure_after_close closedConnW ⟨false⟩ rfl rfl rfl

/-- C5 (amended): `Close` always sets the shutdown flag; when channel and
connection are present it attempts both transport closes (both appear in
the trace, after the flag write) even though the first may fail, and when
both fail it reports the concatenation of the two close errors.  A repeat
`Close` is NOT a no-op success on a previously connected client (see the
counterexample); it returns nil exactly when both underlying closes
succeed or are skipped, e.g. on a client that never connected. -/
theorem C5_shutdown_behavior (w : World) :
    (Close w).2.closed = true ∧
    (∀ ch cn, w.channel = some ch → w.conn = some cn →
      (Close w).2.trace =
        w.trace ++ [Action.lockAcq, Action.setClosed, Action.closeChan, Action.closeConn]) ∧
    (w.channel = some ⟨false⟩ → w.conn = some ⟨false⟩ →
      (Close w).1 = .error ("failed to close channel: " ++ errClosedMsg ++
        "; failed to close connection: " ++ errClosedMsg)) ∧
    (w.channel = none → w.conn = none →
      (Close w).1 = .ok () ∧ (Close w).2.trace = w.trace ++ [Action.lockAcq, Action.setClosed]) := by
  obtain ⟨cn, ch, u, cl, pend, dr, cr, der, mr, pr, qr, tr⟩ := w
  rcases pend with _ | ⟨_ | _, pend⟩ <;>
  rcases ch with _ | ⟨_ | _⟩ <;>
  rcases cn with _ | ⟨_ | _⟩ <;>
  simp [Close, lock, emit, chanClose, connClose, errClosedMsg]

/-- C5 (counterexample): the first `Close` of a connected client returns
nil; the second returns the concatenated `ErrClosed` errors of the
already-closed channel and connection — not a no-op success. -/
theorem C5_counterexample :
    (Close doubleCloseW).1 = .ok () ∧
    (Close (Close doubleCloseW).2).2.closed = true ∧
    (Close (Close doubleCloseW).2).1 =
      .error ("failed to close channel: " ++ errClosedMsg ++
        "; failed to close connection: " ++ errClosedMsg) ∧
    (Close (Close doubleCloseW).2).1 ≠ .ok () := by
  decide

/-- C7: `HealthCheck` leaves `conn`, `channel`, `url` untouched — and the
shutdown flag too, absent concurrent interference — and appends only a
lock acquisition and possibly the queue-declare round-trip to the trace
(in particular it never dials, closes or reconnects).  It fails when the
connection is nil or reports closed, fails when the channel is nil, and
otherwise succeeds exactly when the broker accepts the anonymous
transient queue declare. -/
theorem C7_health_check (w : World) :
    (HealthCheck w).2.conn = w.conn ∧
    (HealthCheck w).2.channel = w.channel ∧
    (HealthCheck w).2.url = w.url ∧
    (w.pendingClose = [] → (HealthCheck w).2.closed = w.closed) ∧
    (HealthCheck w).2.trace = w.trace ++ newTrace w (HealthCheck w).2 ∧
    (∀ a ∈ newTrace w (HealthCheck w).2, a = .lockAcq ∨ a = .queueDeclare) ∧
    (w.conn = none → (HealthCheck w).1 = .error "connection is closed") ∧
    (∀ cn, w.conn = some cn → cn.isOpen = false →
      (HealthCheck w).1 = .error "connection is closed") ∧
    (∀ cn, w.conn = some cn → cn.isOpen = true → w.channel = none →
      (HealthCheck w).1 = .error "channel is nil") ∧
    (∀ cn ch, w.conn = some cn → cn.isOpen = true → w.channel = some ch →
      ((HealthCheck w).1 = .ok () ↔ w.queueResults.head?.getD false = true)) := by
  obtain ⟨cn, ch, u, cl, pend, dr, cr, der, mr, pr, qr, tr⟩ := w
  rcases pend with _ | ⟨_ | _, pend⟩ <;>
  rcases ch with _ | ⟨_ | _⟩ <;>
  rcases cn with _ | ⟨_ | _⟩ <;>
  rcases qr with _ | ⟨_ | _, qr⟩ <;>
  simp [HealthCheck, lock, emit, queueDeclare, newTrace, dialCount]

/-- C10: `Close` writes the shutdown flag under the lock before any close
attempt (every possible `Close` trace starts with the lock acquisition
and the flag write) and leaves it set whatever the close results are; a
close-watcher that subsequently receives a non-nil close notification
takes the lock, reads the flag as set and returns at once — it appends
only the lock acquisition and the flag read, so it never sleeps, dials,
or starts the backoff-retry sequence. -/
theorem C10_close_terminal_watcher (w : World) (e : String) :
    (Close w).2.closed = true ∧
    ((Close w).2.trace = w.trace ++ [Action.lockAcq, Action.setClosed] ∨
     (Close w).2.trace = w.trace ++ [Action.lockAcq, Action.setClosed, Action.closeChan] ∨
     (Close w).2.trace = w.trace ++ [Action.lockAcq, Action.setClosed, Action.closeConn] ∨
     (Close w).2.trace =
       w.trace ++ [Action.lockAcq, Action.setClosed, Action.closeChan, Action.closeConn]) ∧
    (watchBody (some e) (Close w).2).trace =
      (Close w).2.trace ++ [Action.lockAcq, Action.checkClosed true] ∧
    (watchBody (some e) (Close w).2).conn = (Close w).2.conn ∧
    (watchBody (some e) (Close w).2).channel = (Close w).2.channel := by
  obtain ⟨h1, h2, h3⟩ := watchBody_closed (Close w).2 e (Close_closed w)
  exact ⟨Close_closed w, Close_trace_cases w, h1, h2, h3⟩

/-- Recording an action leaves the shutdown flag alone. -/
@[simp] theorem emit_closed (a : Action) (w : World) : (emit a w).closed = w.closed := rfl
/-- Recording an action leaves the interference queue alone. -/
@[simp] theorem emit_pendingClose (a : Action) (w : World) :
    (emit a w).pendingClose = w.pendingClose := rfl

/-- The value of the shutdown flag right after a lock acquisition. -/
theorem lock_closed (w : World) :
    (lock w).closed = (w.closed || w.pendingClose.head?.getD false) := by
  rcases w with ⟨cn, ch, u, cl, _ | ⟨b, pend⟩, dr, cr, der, mr, pr, qr, tr⟩ <;>
    simp [lock, emit]

/-- One loop iteration that reads the flag as set: sleep, lock, check, abort. -/
theorem reconnectGo_step_closed (fuel attempt : Nat) (w : World)
    (hb : (lock (emit (.sleep (backoffDuration attempt)) w)).closed = true) :
    reconnectGo (fuel + 1) attempt w =
      (.error closedDuringMsg,
        emit (.checkClosed true) (lock (emit (.sleep (backoffDuration attempt)) w))) := by
  simp only [reconnectGo, hb, if_true]

/-- One loop iteration whose reconnect fails: the loop moves to the next attempt. -/
theorem reconnectGo_step_err (fuel attempt : Nat) (w : World) (e : String)
    (hb : (lock (emit (.sleep (backoffDuration attempt)) w)).closed = false)
    (hr : (reconnect (emit (.checkClosed false)
        (lock (emit (.sleep (backoffDuration attempt)) w)))).1 = .error e) :
    reconnectGo (fuel + 1) attempt w =
      reconnectGo fuel (attempt + 1)
        (reconnect (emit (.checkClosed false)
          (lock (emit (.sleep (backoffDuration attempt)) w)))).2 := by
  simp only [reconnectGo, hb, Bool.false_eq_true, if_false, hr]

/-- One loop iteration whose reconnect succeeds: restart the watcher, return nil. -/
theorem reconnectGo_step_ok (fuel attempt : Nat) (w : World)
    (hb : (lock (emit (.sleep (backoffDuration attempt)) w)).closed = false)
    (hr : (reconnect (emit (.checkClosed false)
        (lock (emit (.sleep (backoffDuration attempt)) w)))).1 = .ok ()) :
    reconnectGo (fuel + 1) attempt w =
      (.ok (), emit .watchStart
        (reconnect (emit (.checkClosed false)
          (lock (emit (.sleep (backoffDuration attempt)) w)))).2) := by
  simp only [reconnectGo, hb, Bool.false_eq_true, if_false, hr]



/-- Recording an action appends it to the trace. -/
@[simp] theorem emit_trace (a : Action) (w : World) : (emit a w).trace = w.trace ++ [a] := rfl

/-- Whenever the backoff loop reports the closed-abort error, the flag read
that observed the shutdown is the last recorded action: nothing — in
particular no dial — happens after the observation. -/
theorem reconnectGo_abort_last (fuel : Nat) : ∀ (attempt : Nat) (w : World),
    (reconnectGo fuel attempt w).1 = .error closedDuringMsg →
    ∃ δ, (reconnectGo fuel attempt w).2.trace = w.trace ++ δ ∧
      δ.getLast? = some (.checkClosed true) := by
  induction fuel with
  | zero =>
    intro attempt w h
    exfalso
    simp only [reconnectGo] at h
    exact absurd h (by decide)
  | succ fuel ih =>
    intro attempt w h
    rcases hb : (lock (emit (.sleep (backoffDuration attempt)) w)).closed with _ | _
    case false =>
      rcases hr : (reconnect (emit (.checkClosed false)
          (lock (emit (.sleep (backoffDuration attempt)) w)))).1 with e | u
      case error =>
        rw [reconnectGo_step_err fuel attempt w e hb hr] at h ⊢
        obtain ⟨δ', h1, h2⟩ := ih (attempt + 1) _ h
        obtain ⟨r1, -, -, -, -, -, -, -, -, -⟩ :=
          reconnect_spec (emit (.checkClosed false)
            (lock (emit (.sleep (backoffDuration attempt)) w)))
        refine ⟨([Action.sleep (backoffDuration attempt), Action.lockAcq,
          Action.checkClosed false] ++
            newTrace (emit (.checkClosed false)
              (lock (emit (.sleep (backoffDuration attempt)) w)))
              (reconnect (emit (.checkClosed false)
                (lock (emit (.sleep (backoffDuration attempt)) w)))).2) ++ δ', ?_, ?_⟩
        · rw [h1, r1]
          simp [List.append_assoc]
        · have hne : δ' ≠ [] := by
            intro hnil
            rw [hnil] at h2
            simp at h2
          rw [List.getLast?_append_of_ne_nil _ hne]
          exact h2
      case ok =>
        cases u
        rw [reconnectGo_step_ok fuel attempt w hb hr] at h
        simp at h
    case true =>
      rw [reconnectGo_step_closed fuel attempt w hb]
      refine ⟨[Action.sleep (backoffDuration attempt), Action.lockAcq,
        Action.checkClosed true], ?_, rfl⟩
      simp

/-- C3 (amended): each attempt of the backoff-retry sequence reads the
shutdown flag under the lock exactly once — after the backoff sleep and
before dialing, with no check before sleeping; whenever shutdown was
requested by that point (flag already set, or set by a concurrent Close
consumed at this lock acquisition), the attempt performs no dial, the
sequence aborts with "client closed during reconnection" — its last
action being that very flag read — and this terminal condition is
distinct from the attempt-exhaustion error. -/
theorem C3_shutdown_flag_check (fuel attempt : Nat) (w : World) :
    (w.closed = true →
      (reconnectGo (fuel + 1) attempt w).1 = .error closedDuringMsg ∧
      (reconnectGo (fuel + 1) attempt w).2.trace =
        w.trace ++ [.sleep (backoffDuration attempt), .lockAcq, .checkClosed true]) ∧
    (w.pendingClose.head? = some true →
      (reconnectGo (fuel + 1) attempt w).1 = .error closedDuringMsg ∧
      (reconnectGo (fuel + 1) attempt w).2.trace =
        w.trace ++ [.sleep (backoffDuration attempt), .lockAcq, .checkClosed true]) ∧
    ((reconnectGo fuel attempt w).1 = .error closedDuringMsg →
      ∃ δ, (reconnectGo fuel attempt w).2.trace = w.trace ++ δ ∧
        δ.getLast? = some (.checkClosed true)) ∧
    closedDuringMsg ≠ reconnectFailedMsg := by
  refine ⟨?_, ?_, reconnectGo_abort_last fuel attempt w, by decide⟩
  · intro hc
    have hb : (lock (emit (.sleep (backoffDuration attempt)) w)).closed = true := by
      rw [lock_closed]
      simp [hc]
    rw [reconnectGo_step_closed fuel attempt w hb]
    exact ⟨rfl, by simp⟩
  · intro hp
    have hb : (lock (emit (.sleep (backoffDuration attempt)) w)).closed = true := by
      rw [lock_closed]
      simp [hp]
    rw [reconnectGo_step_closed fuel attempt w hb]
    exact ⟨rfl, by simp⟩

/-- C3 (counterexample): a run whose shutdown lands just before the first
lock acquisition.  The trace of the whole attempt is exactly
sleep-lock-check: the first action is the sleep and the single flag check
of the attempt happens only after it, refuting the claimed check before
sleeping (which would put a check before the first sleep and two checks
in the attempt). -/
theorem C3_counterexample :
    (reconnectWithBackoff raceCloseW).2.trace =
      [.sleep 1000000000, .lockAcq, .checkClosed true] ∧
    ((reconnectWithBackoff raceCloseW).2.trace).head? = some (.sleep 1000000000) ∧
    ((reconnectWithBackoff raceCloseW).2.trace).count (.checkClosed true) = 1 ∧
    ((reconnectWithBackoff raceCloseW).2.trace).count (.checkClosed false) = 0 ∧
    (reconnectWithBackoff raceCloseW).1 = .error closedDuringMsg := by
  decide



/-- Backoff durations are non-decreasing in the attempt index. -/
theorem backoffDuration_mono : ∀ i j : Nat, i ≤ j → backoffDuration i ≤ backoffDuration j := by
  intro i j h
  unfold backoffDuration
  exact min_le_min (Nat.mul_le_mul_left _ (Nat.pow_le_pow_right (by norm_num) h)) le_rfl

/-- Backoff durations never exceed the 30s cap. -/
theorem backoffDuration_le_cap : ∀ i : Nat, backoffDuration i ≤ maxBackoffNs := by
  intro i
  exact min_le_right _ _

/-- For every attempt index the loop uses, the cap is not reached and the
backoff is exactly `initialBackoff * 2 ^ i` — hence also equal to the
float computation of the source, which is exact in this range. -/
theorem backoffDuration_exact : ∀ i : Nat, i < maxReconnectAttempts →
    backoffDuration i = initialBackoffNs * 2 ^ i := by
  intro i h
  have h5 : i < 5 := h
  interval_cases i <;> decide

/-- A reconnect-step trace contains no sleep. -/
theorem sleepsOf_nil_of_reconnect (δ : List Action)
    (h : ∀ a ∈ δ, a = .closeChan ∨ a = .closeConn ∨ a = .dial ∨ a = .chanOpen) :
    sleepsOf δ = [] := by
  rw [sleepsOf, List.filterMap_eq_nil_iff]
  intro a ha
  rcases h a ha with rfl | rfl | rfl | rfl <;> rfl

/-- Flattening segments whose sleeps are the indexed singletons yields the
mapped index range. -/
theorem sleepsOf_flatten_indexed (f : Nat → Nat) :
    ∀ (segs : List (List Action)) (start : Nat),
      (∀ i (h : i < segs.length), sleepsOf (segs.get ⟨i, h⟩) = [f (start + i)]) →
      sleepsOf segs.flatten = (List.range' start segs.length).map f := by
  intro segs
  induction segs with
  | nil => intro start _; rfl
  | cons s ss ih =>
    intro start h
    have h0 := h 0 (by simp)
    have hrest : ∀ i (hi : i < ss.length),
        sleepsOf (ss.get ⟨i, hi⟩) = [f ((start + 1) + i)] := by
      intro i hi
      have := h (i + 1) (by simpa using Nat.succ_lt_succ hi)
      have harith : start + (i + 1) = start + 1 + i := by omega
      simpa [harith] using this
    have hflat : (s :: ss).flatten = s ++ ss.flatten := List.flatten_cons
    rw [hflat, sleepsOf, List.filterMap_append, ← sleepsOf, ← sleepsOf]
    rw [show sleepsOf s = [f (start + 0)] from h0, ih (start + 1) hrest]
    have hr : List.range' start (ss.length + 1) = start :: List.range' (start + 1) ss.length :=
      List.range'_succ start ss.length 1
    simp [hr]

/-- An action occurring at most once per segment occurs at most
`segs.length` times in the flattening. -/
theorem count_flatten_le (a : Action) :
    ∀ segs : List (List Action),
      (∀ s ∈ segs, s.count a ≤ 1) → segs.flatten.count a ≤ segs.length := by
  intro segs
  induction segs with
  | nil => simp
  | cons s ss ih =>
    intro h
    rw [List.flatten_cons, List.count_append]
    have h1 := h s (by simp)
    have h2 := ih (fun t ht => h t (by simp [ht]))
    simp only [List.length_cons]
    omega



/-- Sleep durations distribute over trace concatenation. -/
theorem sleepsOf_append (l1 l2 : List Action) :
    sleepsOf (l1 ++ l2) = sleepsOf l1 ++ sleepsOf l2 := by
  simp [sleepsOf, List.filterMap_append]

/-- Segment decomposition of every run of the backoff loop: the appended
trace splits into at most `fuel` per-attempt segments; segment `i` starts
with — and contains exactly — the sleep of duration
`backoffDuration (attempt + i)` and dials at most once; a nil result ends
with the watcher restart; and the result is success, the closed-abort
error, or the exhaustion error after a full `fuel` segments. -/
theorem reconnectGo_segments (fuel : Nat) : ∀ (attempt : Nat) (w : World),
    ∃ segs : List (List Action),
      (reconnectGo fuel attempt w).2.trace = w.trace ++ segs.flatten ∧
      segs.length ≤ fuel ∧
      (∀ i (h : i < segs.length),
        (segs.get ⟨i, h⟩).head? = some (.sleep (backoffDuration (attempt + i))) ∧
        sleepsOf (segs.get ⟨i, h⟩) = [backoffDuration (attempt + i)] ∧
        (segs.get ⟨i, h⟩).count Action.dial ≤ 1) ∧
      ((reconnectGo fuel attempt w).1 = .ok () →
        ∃ pre, segs.flatten = pre ++ [Action.watchStart]) ∧
      ((reconnectGo fuel attempt w).1 = .ok () ∨
       (reconnectGo fuel attempt w).1 = .error closedDuringMsg ∨
       ((reconnectGo fuel attempt w).1 = .error reconnectFailedMsg ∧
         segs.length = fuel)) := by
  induction fuel with
  | zero =>
    intro attempt w
    refine ⟨[], by simp [reconnectGo], by simp, ?_, ?_, ?_⟩
    · intro i h
      exact absurd h (by simp)
    · intro h
      exfalso
      simp only [reconnectGo] at h
      exact absurd h (by decide)
    · right; right
      exact ⟨by simp [reconnectGo], rfl⟩
  | succ fuel ih =>
    intro attempt w
    rcases hb : (lock (emit (.sleep (backoffDuration attempt)) w)).closed with _ | _
    case true =>
      rw [reconnectGo_step_closed fuel attempt w hb]
      refine ⟨[[Action.sleep (backoffDuration attempt), Action.lockAcq,
        Action.checkClosed true]], by simp, by simp, ?_, ?_, ?_⟩
      · intro i h
        have hi0 : i = 0 := by simpa using Nat.lt_one_iff.mp (by simpa using h)
        subst hi0
        refine ⟨by simp, by simp [sleepsOf], by simp⟩
      · intro h
        exact absurd h (by simp)
      · right; left; rfl
    case false =>
      rcases hr : (reconnect (emit (.checkClosed false)
          (lock (emit (.sleep (backoffDuration attempt)) w)))).1 with e | u
      case error =>
        rw [reconnectGo_step_err fuel attempt w e hb hr]
        obtain ⟨r1, r2, r3, -, -, -, -, -, -, -⟩ :=
          reconnect_spec (emit (.checkClosed false)
            (lock (emit (.sleep (backoffDuration attempt)) w)))
        obtain ⟨segs', h1, h2, h3, h4, h5⟩ := ih (attempt + 1)
          (reconnect (emit (.checkClosed false)
            (lock (emit (.sleep (backoffDuration attempt)) w)))).2
        refine ⟨([Action.sleep (backoffDuration attempt), Action.lockAcq,
          Action.checkClosed false] ++
            newTrace (emit (.checkClosed false)
              (lock (emit (.sleep (backoffDuration attempt)) w)))
              (reconnect (emit (.checkClosed false)
                (lock (emit (.sleep (backoffDuration attempt)) w)))).2) :: segs',
          ?_, ?_, ?_, ?_, ?_⟩
        · rw [h1, r1]
          simp [List.append_assoc]
        · simpa using Nat.succ_le_succ h2
        · intro i h
          cases i with
          | zero =>
            refine ⟨by simp, ?_, ?_⟩
            · simp only [List.get_eq_getElem, List.getElem_cons_zero]
              rw [sleepsOf_append, sleepsOf_nil_of_reconnect _ r3]
              simp [sleepsOf]
            · have hdc : (newTrace (emit (.checkClosed false)
                  (lock (emit (.sleep (backoffDuration attempt)) w)))
                  (reconnect (emit (.checkClosed false)
                    (lock (emit (.sleep (backoffDuration attempt)) w)))).2).count
                    Action.dial = 1 := r2
              simp [List.count_append, hdc]
          | succ i =>
            have hlt : i < segs'.length := by simpa using h
            obtain ⟨p1, p2, p3⟩ := h3 i hlt
            have harith : attempt + 1 + i = attempt + (i + 1) := by omega
            rw [harith] at p1 p2
            exact ⟨by simpa using p1, by simpa using p2, by simpa using p3⟩
        · intro hok
          obtain ⟨pre', hpre⟩ := h4 hok
          refine ⟨([Action.sleep (backoffDuration attempt), Action.lockAcq,
            Action.checkClosed false] ++
              newTrace (emit (.checkClosed false)
                (lock (emit (.sleep (backoffDuration attempt)) w)))
                (reconnect (emit (.checkClosed false)
                  (lock (emit (.sleep (backoffDuration attempt)) w)))).2) ++ pre', ?_⟩
          rw [List.flatten_cons, hpre]
          simp [List.append_assoc]
        · rcases h5 with h5 | h5 | ⟨h5a, h5b⟩
          · left; exact h5
          · right; left; exact h5
          · right; right
            exact ⟨h5a, by simp [h5b]⟩
      case ok =>
        cases u
        rw [reconnectGo_step_ok fuel attempt w hb hr]
        obtain ⟨r1, r2, r3, -, -, -, -, -, -, -⟩ :=
          reconnect_spec (emit (.checkClosed false)
            (lock (emit (.sleep (backoffDuration attempt)) w)))
        refine ⟨[([Action.sleep (backoffDuration attempt), Action.lockAcq,
          Action.checkClosed false] ++
            newTrace (emit (.checkClosed false)
              (lock (emit (.sleep (backoffDuration attempt)) w)))
              (reconnect (emit (.checkClosed false)
                (lock (emit (.sleep (backoffDuration attempt)) w)))).2) ++
          [Action.watchStart]], ?_, by simp, ?_, ?_, ?_⟩
        · rw [show (emit Action.watchStart (reconnect (emit (.checkClosed false)
            (lock (emit (.sleep (backoffDuration attempt)) w)))).2).trace =
              (reconnect (emit (.checkClosed false)
                (lock (emit (.sleep (backoffDuration attempt)) w)))).2.trace ++
                [Action.watchStart] from rfl]
          rw [r1]
          simp [List.append_assoc]
        · intro i h
          have hi0 : i = 0 := by simpa using Nat.lt_one_iff.mp (by simpa using h)
          subst hi0
          refine ⟨by simp, ?_, ?_⟩
          · simp only [List.get_eq_getElem, List.getElem_cons_zero]
            rw [sleepsOf_append, sleepsOf_append, sleepsOf_nil_of_reconnect _ r3]
            simp [sleepsOf]
          · have hdc : (newTrace (emit (.checkClosed false)
                (lock (emit (.sleep (backoffDuration attempt)) w)))
                (reconnect (emit (.checkClosed false)
                  (lock (emit (.sleep (backoffDuration attempt)) w)))).2).count
                  Action.dial = 1 := r2
            simp [List.count_append, hdc]
        · intro _
          refine ⟨[Action.sleep (backoffDuration attempt), Action.lockAcq,
            Action.checkClosed false] ++
              newTrace (emit (.checkClosed false)
                (lock (emit (.sleep (backoffDuration attempt)) w)))
                (reconnect (emit (.checkClosed false)
                  (lock (emit (.sleep (backoffDuration attempt)) w)))).2, by simp⟩
        · left; rfl



/-- C4: every run of the backoff-retry sequence performs at most 5 dial
attempts; its trace splits into at most 5 per-attempt segments, attempt
`i` being preceded by a sleep of exactly
`min(initialBackoff * 2^i, maxBackoff)` (the sequence of sleeps is the
mapped index range), with the backoff non-decreasing, capped at 30s and
exactly `1s * 2^i` for the indices used; on success the last appended
action is the close-watcher restart (the sequence exits at the first
successful reconnect), and the only non-success outcomes are the
closed-abort and the failure reported after the full 5 attempts. -/
theorem C4_backoff_bounds (w : World) :
    ∃ segs : List (List Action),
      (reconnectWithBackoff w).2.trace = w.trace ++ segs.flatten ∧
      segs.length ≤ maxReconnectAttempts ∧
      segs.flatten.count Action.dial ≤ maxReconnectAttempts ∧
      sleepsOf segs.flatten = (List.range segs.length).map backoffDuration ∧
      (∀ i (h : i < segs.length),
        (segs.get ⟨i, h⟩).head? = some (.sleep (backoffDuration i)) ∧
        (segs.get ⟨i, h⟩).count Action.dial ≤ 1) ∧
      (∀ i j : Nat, i ≤ j → backoffDuration i ≤ backoffDuration j) ∧
      (∀ i : Nat, backoffDuration i ≤ maxBackoffNs) ∧
      (∀ i : Nat, i < maxReconnectAttempts →
        backoffDuration i = initialBackoffNs * 2 ^ i) ∧
      ((reconnectWithBackoff w).1 = .ok () →
        ∃ pre, segs.flatten = pre ++ [Action.watchStart]) ∧
      ((reconnectWithBackoff w).1 = .ok () ∨
       (reconnectWithBackoff w).1 = .error closedDuringMsg ∨
       ((reconnectWithBackoff w).1 = .error reconnectFailedMsg ∧
         segs.length = maxReconnectAttempts)) := by
  obtain ⟨segs, h1, h2, h3, h4, h5⟩ := reconnectGo_segments maxReconnectAttempts 0 w
  refine ⟨segs, h1, h2, ?_, ?_, ?_, backoffDuration_mono, backoffDuration_le_cap,
    backoffDuration_exact, h4, h5⟩
  · refine le_trans (count_flatten_le _ segs ?_) h2
    intro s hs
    obtain ⟨⟨i, hi⟩, rfl⟩ := List.mem_iff_get.mp hs
    exact (h3 i hi).2.2
  · have hidx : ∀ i (h : i < segs.length),
        sleepsOf (segs.get ⟨i, h⟩) = [backoffDuration (0 + i)] := by
      intro i h
      simpa using (h3 i h).2.1
    rw [sleepsOf_flatten_indexed backoffDuration segs 0 hidx, List.range_eq_range']
  · intro i h
    refine ⟨?_, (h3 i h).2.2⟩
    have := (h3 i h).1
    simpa using this


/-- Outcome, trace and frame of the exchange-declare step. -/
theorem exchangeDeclare_spec (w : World) :
    ((exchangeDeclare w).1 =
      (if w.declareResults.head?.getD false = true then .ok () else .error declErrMsg)) ∧
    (exchangeDeclare w).2.trace = w.trace ++ [Action.exchangeDeclare] ∧
    (exchangeDeclare w).2.marshalResults = w.marshalResults ∧
    (exchangeDeclare w).2.publishResults = w.publishResults := by
  obtain ⟨cn, ch, u, cl, pend, dr, cr, der, mr, pr, qr, tr⟩ := w
  rcases der with _ | ⟨_ | _, der⟩ <;> simp [exchangeDeclare, emit]

/-- Outcome and frame of the marshal step (pure CPU work, no trace). -/
theorem jsonMarshal_spec (w : World) :
    ((jsonMarshal w).1 =
      (if w.marshalResults.head?.getD false = true then .ok () else .error marshalErrMsg)) ∧
    (jsonMarshal w).2.trace = w.trace ∧
    (jsonMarshal w).2.publishResults = w.publishResults := by
  obtain ⟨cn, ch, u, cl, pend, dr, cr, der, mr, pr, qr, tr⟩ := w
  rcases mr with _ | ⟨_ | _, mr⟩ <;> simp [jsonMarshal]

/-- Outcome and trace of the send step. -/
theorem publishSend_spec (w : World) :
    ((publishSend w).1 =
      (if w.publishResults.head?.getD false = true then .ok () else .error pubErrMsg)) ∧
    (publishSend w).2.trace = w.trace ++ [Action.publishMsg] := by
  obtain ⟨cn, ch, u, cl, pend, dr, cr, der, mr, pr, qr, tr⟩ := w
  rcases pr with _ | ⟨_ | _, pr⟩ <;> simp [publishSend, emit]



/-- Computing the appended part of a trace from an append equation. -/
theorem newTrace_of_eq (w w' : World) (δ : List Action)
    (h : w'.trace = w.trace ++ δ) : newTrace w w' = δ := by
  show w'.trace.drop w.trace.length = δ
  rw [h]
  exact List.drop_left w.trace δ

/-- C6: a `Publish` call invokes `ensureConnection` first, and on its
failure returns the wrapped error with the post-ensure state unchanged —
the ensure phase itself declares nothing and sends nothing, so no
exchange declaration and no send has been attempted; in every case the
call performs at most one dial, at most one exchange declare and at most
one send (one connect-or-verify + declare + send cycle, no internal
retry); when the ensure phase succeeds, the result is the wrapped error
of the first failing step (declare, marshal, send, in that order) or
success; and a declare failure means no send was attempted. -/
theorem C6_publish_one_cycle (w : World) :
    (∀ e, (ensureConnection w).1 = .error e →
      Publish w = (.error ("failed to ensure connection: " ++ e), (ensureConnection w).2)) ∧
    ((ensureConnection w).2.trace = w.trace ++ newTrace w (ensureConnection w).2 ∧
      (newTrace w (ensureConnection w).2).count Action.exchangeDeclare = 0 ∧
      (newTrace w (ensureConnection w).2).count Action.publishMsg = 0) ∧
    ((Publish w).2.trace = w.trace ++ newTrace w (Publish w).2 ∧
      dialCount (newTrace w (Publish w).2) ≤ 1 ∧
      (newTrace w (Publish w).2).count Action.exchangeDeclare ≤ 1 ∧
      (newTrace w (Publish w).2).count Action.publishMsg ≤ 1) ∧
    ((ensureConnection w).1 = .ok () →
      (Publish w).1 =
        (if w.declareResults.head?.getD false = false then
          .error ("failed to declare exchange: " ++ declErrMsg)
        else if w.marshalResults.head?.getD false = false then
          .error ("failed to marshal message: " ++ marshalErrMsg)
        else if w.publishResults.head?.getD false = false then
          .error ("failed to publish message: " ++ pubErrMsg)
        else .ok ())) ∧
    ((ensureConnection w).1 = .ok () → w.declareResults.head?.getD false = false →
      (newTrace w (Publish w).2).count Action.publishMsg = 0) := by
  obtain ⟨he1, he2, he3, he4, he5, he6, -⟩ := ensureConnection_spec w
  have hd0 : (newTrace w (ensureConnection w).2).count Action.exchangeDeclare = 0 := by
    rw [List.count_eq_zero]
    intro hmem
    rcases he3 _ hmem with h | h | h | h | h <;> exact absurd h (by decide)
  have hp0 : (newTrace w (ensureConnection w).2).count Action.publishMsg = 0 := by
    rw [List.count_eq_zero]
    intro hmem
    rcases he3 _ hmem with h | h | h | h | h <;> exact absurd h (by decide)
  refine ⟨?_, ⟨he1, hd0, hp0⟩, ?_⟩
  · intro e hE
    simp [Publish, hE]
  rcases hE : (ensureConnection w).1 with e | u
  case error =>
    have hPe : Publish w =
        (.error ("failed to ensure connection: " ++ e), (ensureConnection w).2) := by
      simp [Publish, hE]
    have hnew : newTrace w (Publish w).2 = newTrace w (ensureConnection w).2 := by
      rw [hPe]
    refine ⟨⟨?_, ?_, ?_, ?_⟩, ?_, ?_⟩
    · rw [hnew, hPe]
      exact he1
    · rw [hnew]
      exact he2
    · rw [hnew]
      simp [hd0]
    · rw [hnew]
      simp [hp0]
    · intro h
      simp at h
    · intro h
      simp at h
  case ok =>
    cases u
    obtain ⟨xd1, xd2, xd3, xd4⟩ := exchangeDeclare_spec (lock (ensureConnection w).2)
    rcases hdc : w.declareResults.head?.getD false with _ | _
    case false =>
      have hr1 : (exchangeDeclare (lock (ensureConnection w).2)).1 = .error declErrMsg := by
        rw [xd1, lock_declareResults, he4, hdc]
        simp
      have hPub : Publish w =
          (.error ("failed to declare exchange: " ++ declErrMsg),
            (exchangeDeclare (lock (ensureConnection w).2)).2) := by
        simp only [Publish, hE, hr1]
      have htr : (Publish w).2.trace =
          w.trace ++ (newTrace w (ensureConnection w).2 ++
            [Action.lockAcq, Action.exchangeDeclare]) := by
        rw [hPub]
        show (exchangeDeclare (lock (ensureConnection w).2)).2.trace = _
        rw [xd2, lock_trace, he1]
        simp [List.append_assoc]
      have hnew : newTrace w (Publish w).2 =
          newTrace w (ensureConnection w).2 ++ [Action.lockAcq, Action.exchangeDeclare] :=
        newTrace_of_eq _ _ _ htr
      refine ⟨⟨?_, ?_, ?_, ?_⟩, ?_, ?_⟩
      · rw [hnew, htr]
      · rw [hnew]
        simp only [dialCount, List.count_append] at he2 ⊢
        have hz : List.count Action.dial [Action.lockAcq, Action.exchangeDeclare] = 0 := by
          decide
        omega
      · rw [hnew]
        simp [List.count_append, hd0]
      · rw [hnew]
        simp [List.count_append, hp0]
      · intro _
        rw [hPub]
        simp
      · intro _ _
        rw [hnew]
        simp [List.count_append, hp0]
    case true =>
      have hr1 : (exchangeDeclare (lock (ensureConnection w).2)).1 = .ok () := by
        rw [xd1, lock_declareResults, he4, hdc]
        simp
      have hmq : (exchangeDeclare (lock (ensureConnection w).2)).2.marshalResults =
          w.marshalResults := by
        rw [xd3, lock_marshalResults, he5]
      obtain ⟨xm1, xm2, xm3⟩ :=
        jsonMarshal_spec (exchangeDeclare (lock (ensureConnection w).2)).2
      rcases hmc : w.marshalResults.head?.getD false with _ | _
      case false =>
        have hr2 : (jsonMarshal (exchangeDeclare (lock (ensureConnection w).2)).2).1 =
            .error marshalErrMsg := by
          rw [xm1, hmq, hmc]
          simp
        have hPub : Publish w =
            (.error ("failed to marshal message: " ++ marshalErrMsg),
              (jsonMarshal (exchangeDeclare (lock (ensureConnection w).2)).2).2) := by
          simp only [Publish, hE, hr1, hr2]
        have htr : (Publish w).2.trace =
            w.trace ++ (newTrace w (ensureConnection w).2 ++
              [Action.lockAcq, Action.exchangeDeclare]) := by
          rw [hPub]
          show (jsonMarshal (exchangeDeclare (lock (ensureConnection w).2)).2).2.trace = _
          rw [xm2, xd2, lock_trace, he1]
          simp [List.append_assoc]
        have hnew : newTrace w (Publish w).2 =
            newTrace w (ensureConnection w).2 ++ [Action.lockAcq, Action.exchangeDeclare] :=
          newTrace_of_eq _ _ _ htr
        refine ⟨⟨?_, ?_, ?_, ?_⟩, ?_, ?_⟩
        · rw [hnew, htr]
        · rw [hnew]
          simp only [dialCount, List.count_append] at he2 ⊢
          have hz : List.count Action.dial [Action.lockAcq, Action.exchangeDeclare] = 0 := by
            decide
          omega
        · rw [hnew]
          simp [List.count_append, hd0]
        · rw [hnew]
          simp [List.count_append, hp0]
        · intro _
          rw [hPub]
          simp
        · intro _ h
          simp at h
      case true =>
        have hr2 : (jsonMarshal (exchangeDeclare (lock (ensureConnection w).2)).2).1 =
            .ok () := by
          rw [xm1, hmq, hmc]
          simp
        have hpq : (jsonMarshal (exchangeDeclare (lock (ensureConnection w).2)).2).2.publishResults =
            w.publishResults := by
          rw [xm3, xd4, lock_publishResults, he6]
        obtain ⟨xp1, xp2⟩ :=
          publishSend_spec (jsonMarshal (exchangeDeclare (lock (ensureConnection w).2)).2).2
        have htr : (publishSend (jsonMarshal
            (exchangeDeclare (lock (ensureConnection w).2)).2).2).2.trace =
            w.trace ++ (newTrace w (ensureConnection w).2 ++
              [Action.lockAcq, Action.exchangeDeclare, Action.publishMsg]) := by
          rw [xp2, xm2, xd2, lock_trace, he1]
          simp [List.append_assoc]
        rcases hpc : w.publishResults.head?.getD false with _ | _
        case false =>
          have hr3 : (publishSend (jsonMarshal
              (exchangeDeclare (lock (ensureConnection w).2)).2).2).1 =
              .error pubErrMsg := by
            rw [xp1, hpq, hpc]
            simp
          have hPub : Publish w =
              (.error ("failed to publish message: " ++ pubErrMsg),
                (publishSend (jsonMarshal
                  (exchangeDeclare (lock (ensureConnection w).2)).2).2).2) := by
            simp only [Publish, hE, hr1, hr2, hr3]
          have htr2 : (Publish w).2.trace =
              w.trace ++ (newTrace w (ensureConnection w).2 ++
                [Action.lockAcq, Action.exchangeDeclare, Action.publishMsg]) := by
            rw [hPub]
            exact htr
          have hnew : newTrace w (Publish w).2 =
              newTrace w (ensureConnection w).2 ++
                [Action.lockAcq, Action.exchangeDeclare, Action.publishMsg] :=
            newTrace_of_eq _ _ _ htr2
          refine ⟨⟨?_, ?_, ?_, ?_⟩, ?_, ?_⟩
          · rw [hnew, htr2]
          · rw [hnew]
            simp only [dialCount, List.count_append] at he2 ⊢
            have hz : List.count Action.dial
                [Action.lockAcq, Action.exchangeDeclare, Action.publishMsg] = 0 := by
              decide
            omega
          · rw [hnew]
            simp [List.count_append, hd0]
          · rw [hnew]
            simp [List.count_append, hp0]
          · intro _
            rw [hPub]
            simp
          · intro _ h
            simp at h
        case true =>
          have hr3 : (publishSend (jsonMarshal
              (exchangeDeclare (lock (ensureConnection w).2)).2).2).1 = .ok () := by
            rw [xp1, hpq, hpc]
            simp
          have hPub : Publish w =
              (.ok (),
                (publishSend (jsonMarshal
                  (exchangeDeclare (lock (ensureConnection w).2)).2).2).2) := by
            simp only [Publish, hE, hr1, hr2, hr3]
          have htr2 : (Publish w).2.trace =
              w.trace ++ (newTrace w (ensureConnection w).2 ++
                [Action.lockAcq, Action.exchangeDeclare, Action.publishMsg]) := by
            rw [hPub]
            exact htr
          have hnew : newTrace w (Publish w).2 =
              newTrace w (ensureConnection w).2 ++
                [Action.lockAcq, Action.exchangeDeclare, Action.publishMsg] :=
            newTrace_of_eq _ _ _ htr2
          refine ⟨⟨?_, ?_, ?_, ?_⟩, ?_, ?_⟩
          · rw [hnew, htr2]
          · rw [hnew]
            simp only [dialCount, List.count_append] at he2 ⊢
            have hz : List.count Action.dial
                [Action.lockAcq, Action.exchangeDeclare, Action.publishMsg] = 0 := by
              decide
            omega
          · rw [hnew]
            simp [List.count_append, hd0]
          · rw [hnew]
            simp [List.count_append, hp0]
          · intro _
            rw [hPub]
            simp
          · intro _ h
            simp at h


end CertWebhook
